import Mathlib

/-!
Verification of the `asdr` audio filter (libavfilter/af_asdr.c).

The filter consumes two synchronized audio streams (reference on input 0,
test on input 1), accumulates per-channel signal energy (`sum_u`) and
distortion energy (`sum_uv`) over aligned sample blocks, forwards the
reference stream unmodified, and at teardown reports per-channel
SDR = 20 * log10(sum_u / sum_uv) in decibels.

Samples and accumulators are modelled with exact rationals standing in for
C doubles; the sums computed by the kernel on the concrete test vectors of
the spec are exact in IEEE double, so the rational model agrees with the C
code on them.  IEEE rounding itself is not modelled.
-/

/-- An audio frame: channel count, sample count, per-channel sample data
(`data ch n` is sample `n` of channel `ch`; only indices `n < nb_samples`
are meaningful), and its presentation timestamp. -/
structure Frame where
  nb_channels : ℕ
  nb_samples : ℕ
  data : ℕ → ℕ → ℚ
  pts : ℤ

/-- The accumulator state of `AudioSDRContext`: per-channel running totals
`sum_u` (signal energy) and `sum_uv` (distortion energy), indexed by
channel. -/
structure SDRState where
  sum_u : ℕ → ℚ
  sum_uv : ℕ → ℚ

/-- The all-zero accumulator state produced by `config_output`
(`av_calloc`). -/
def initState : SDRState := ⟨fun _ => 0, fun _ => 0⟩

/-- The inner loop of the `SDR_FILTER` kernel for one channel: starting
from local sums `(0, 0)`, for `n` in `[0, nb_samples)` add
`us[n] * us[n]` into the first component and
`(us[n] - vs[n]) * (us[n] - vs[n])` into the second. -/
def sdrChannelSums (u v : Frame) (ch : ℕ) : ℚ × ℚ :=
  (List.range u.nb_samples).foldl
    (fun s n =>
      (s.1 + u.data ch n * u.data ch n,
       s.2 + (u.data ch n - v.data ch n) * (u.data ch n - v.data ch n)))
    (0, 0)

/-- One iteration of the kernel's outer loop: form the two local sums for
channel `ch`, then add each into the shared per-channel accumulator
(`s->sum_uv[ch] += sum_uv; s->sum_u[ch] += sum_u`). -/
def sdrAccumChannel (u v : Frame) (ch : ℕ) (st : SDRState) : SDRState :=
  let s := sdrChannelSums u v ch
  { sum_u := Function.update st.sum_u ch (st.sum_u ch + s.1),
    sum_uv := Function.update st.sum_uv ch (st.sum_uv ch + s.2) }

/-- The kernel's outer loop over the channel range
`[start, start + cnt)`. -/
def sdrRange (u v : Frame) (start cnt : ℕ) (st : SDRState) : SDRState :=
  match cnt with
  | 0 => st
  | Nat.succ k => sdrRange u v (start + 1) k (sdrAccumChannel u v start st)

/-- One job of the `SDR_FILTER` kernel: `channels` is read from the cached
reference frame, and the job processes the channel range
`[channels*jobnr/nb_jobs, channels*(jobnr+1)/nb_jobs)`. -/
def sdrJob (u v : Frame) (jobnr nb_jobs : ℕ) (st : SDRState) : SDRState :=
  let channels := u.nb_channels
  let start := channels * jobnr / nb_jobs
  let stop := channels * (jobnr + 1) / nb_jobs
  sdrRange u v start (stop - start) st

/-- The double-precision specialization `sdr_dblp` generated by
`SDR_FILTER(dblp, double)`.  In the exact-arithmetic model its body
coincides with the generic job. -/
def sdr_dblp (u v : Frame) (jobnr nb_jobs : ℕ) (st : SDRState) : SDRState :=
  sdrJob u v jobnr nb_jobs st

/-- The single-precision specialization `sdr_fltp` generated by
`SDR_FILTER(fltp, float)`.  Exact arithmetic does not model 32-bit
storage rounding, so its body also coincides with the generic job. -/
def sdr_fltp (u v : Frame) (jobnr nb_jobs : ℕ) (st : SDRState) : SDRState :=
  sdrJob u v jobnr nb_jobs st

/-- `ff_filter_execute` running the kernel sharded into `nb_jobs` jobs
(jobs are independent and touch disjoint channel ranges, so the
sequential fold models any execution order). -/
def sdrExecute (u v : Frame) (nb_jobs : ℕ) (st : SDRState) : SDRState :=
  (List.range nb_jobs).foldl (fun st j => sdrJob u v j nb_jobs st) st

/-- Mathematical per-channel signal energy of a frame:
`Σ_{n < nb_samples} u[ch][n]^2`. -/
def energySum (u : Frame) (ch : ℕ) : ℚ :=
  ∑ n ∈ Finset.range u.nb_samples, u.data ch n * u.data ch n

/-- Mathematical per-channel distortion energy of a frame pair:
`Σ_{n < nb_samples} (u[ch][n] - v[ch][n])^2`. -/
def distortionSum (u v : Frame) (ch : ℕ) : ℚ :=
  ∑ n ∈ Finset.range u.nb_samples,
    (u.data ch n - v.data ch n) * (u.data ch n - v.data ch n)

-- Basic kernel lemmas ------------------------------------------------------

theorem sdrChannelSums_foldl (u v : Frame) (ch : ℕ) (m : ℕ) (a b : ℚ) :
    (List.range m).foldl
      (fun s n =>
        (s.1 + u.data ch n * u.data ch n,
         s.2 + (u.data ch n - v.data ch n) * (u.data ch n - v.data ch n)))
      (a, b) =
    (a + ∑ n ∈ Finset.range m, u.data ch n * u.data ch n,
     b + ∑ n ∈ Finset.range m,
       (u.data ch n - v.data ch n) * (u.data ch n - v.data ch n)) := by
  induction m generalizing a b with
  | zero => simp
  | succ k ih =>
      rw [List.range_succ, List.foldl_append, ih]
      simp [Finset.sum_range_succ]
      ring_nf
      constructor <;> ring

theorem sdrChannelSums_eq (u v : Frame) (ch : ℕ) :
    sdrChannelSums u v ch = (energySum u ch, distortionSum u v ch) := by
  unfold sdrChannelSums energySum distortionSum
  rw [sdrChannelSums_foldl]
  simp

theorem sdrRange_append (u v : Frame) (a m k : ℕ) (st : SDRState) :
    sdrRange u v a (m + k) st = sdrRange u v (a + m) k (sdrRange u v a m st) := by
  induction m generalizing a st with
  | zero => simp [sdrRange]
  | succ j ih =>
      have h : a + (j + 1) = (a + 1) + j := by omega
      have h2 : j + 1 + k = (j + k) + 1 := by omega
      rw [h2]
      simp only [sdrRange]
      rw [ih, h]

theorem sdrRange_sum_u_lt (u v : Frame) (start cnt : ℕ) (st : SDRState)
    (ch : ℕ) (h : ch < start) :
    (sdrRange u v start cnt st).sum_u ch = st.sum_u ch := by
  induction cnt generalizing start st with
  | zero => rfl
  | succ k ih =>
      simp only [sdrRange]
      rw [ih (start + 1) _ (by omega)]
      simp [sdrAccumChannel, Function.update_noteq (by omega : ch ≠ start)]

theorem sdrRange_sum_uv_lt (u v : Frame) (start cnt : ℕ) (st : SDRState)
    (ch : ℕ) (h : ch < start) :
    (sdrRange u v start cnt st).sum_uv ch = st.sum_uv ch := by
  induction cnt generalizing start st with
  | zero => rfl
  | succ k ih =>
      simp only [sdrRange]
      rw [ih (start + 1) _ (by omega)]
      simp [sdrAccumChannel, Function.update_noteq (by omega : ch ≠ start)]

theorem sdrRange_mem (u v : Frame) (start cnt : ℕ) (st : SDRState)
    (ch : ℕ) (h1 : start ≤ ch) (h2 : ch < start + cnt) :
    (sdrRange u v start cnt st).sum_u ch = st.sum_u ch + energySum u ch ∧
    (sdrRange u v start cnt st).sum_uv ch = st.sum_uv ch + distortionSum u v ch := by
  induction cnt generalizing start st with
  | zero => omega
  | succ k ih =>
      simp only [sdrRange]
      rcases Nat.eq_or_lt_of_le h1 with heq | hlt
      · subst heq
        rw [sdrRange_sum_u_lt _ _ _ _ _ _ (by omega),
            sdrRange_sum_uv_lt _ _ _ _ _ _ (by omega)]
        simp [sdrAccumChannel, sdrChannelSums_eq]
      · have := ih (start + 1) (sdrAccumChannel u v start st) (by omega) (by omega)
        rw [this.1, this.2]
        have hne : ch ≠ start := by omega
        simp [sdrAccumChannel, Function.update_noteq hne]

-- Stream synchronizer model -------------------------------------------------

/-- Modelled from the spec: one input link of the host's frame-queue
abstraction (`ff_inlink_*`, code of this repository outside this file).
It exposes a buffered sample count, the underlying per-channel sample
stream (`data ch n`), the timestamp of the next block, an injected
withdrawal failure (`failCode = some e` makes exact-length withdrawal
fail with error `e`, e.g. an upstream error reported mid-block), and an
optional terminal status signal `(status code, timestamp)` as
acknowledged by `ff_inlink_acknowledge_status`. -/
structure InLink where
  channels : ℕ
  queued : ℕ
  data : ℕ → ℕ → ℚ
  pts : ℤ
  failCode : Option ℤ
  status : Option (ℤ × ℤ)

/-- Modelled from the spec: `ff_inlink_consume_samples` with
`min = max = n` — exact-length withdrawal of `n` samples as one block.
On success it returns the withdrawn frame (the first `n` queued samples,
with the link's current timestamp) and the advanced link; on an injected
upstream failure it returns the error and withdraws nothing.
`advanceLink l n` is the state of link `l` after `n` samples were
withdrawn: the queue shrinks by `n` and the remaining stream and
timestamp shift past the withdrawn block. -/
def advanceLink (l : InLink) (n : ℕ) : InLink :=
  { l with
      queued := l.queued - n,
      data := fun ch i => l.data ch (i + n),
      pts := l.pts + n }

def consumeSamples (l : InLink) (n : ℕ) : Except ℤ (Frame × InLink) :=
  match l.failCode with
  | some e => .error e
  | none => .ok (⟨l.channels, n, l.data, l.pts⟩, advanceLink l n)

/-- The outcome of one `activate` step: forward a frame downstream,
return an error, propagate a status signal `(status, pts)` downstream,
request more frames upstream (`r0`/`r1` say whether input 0 / input 1
was asked), or report `FFERROR_NOT_READY`. -/
inductive ActResult where
  | frameOut (f : Frame)
  | err (e : ℤ)
  | statusOut (status : ℤ) (pts : ℤ)
  | requested (r0 r1 : Bool)
  | notReady

/-- One step of `activate`, shallowly embedding the C control flow:
compute `available = min` of the two queued sample counts; if positive,
withdraw `available` samples from each input (freeing both cached blocks
and returning the error if either withdrawal fails), run the kernel over
`min(channels, nb_threads)` jobs unless the filter is disabled, free the
test-side block and forward the reference-side block; otherwise
propagate a pending input status signal downstream, or request frames
from empty inputs when the output wants a frame, or report not-ready.
Returns the step result, the accumulator state, and both updated links.
Status acknowledgement, frame requests and downstream readiness are
modelled from the spec (`ff_inlink_acknowledge_status`,
`ff_inlink_request_frame`, `ff_outlink_frame_wanted` are host code
outside this file). -/
def activate (nbThreads : ℕ) (isDisabled frameWanted : Bool)
    (in0 in1 : InLink) (st : SDRState) :
    ActResult × SDRState × InLink × InLink :=
  let available := min in0.queued in1.queued
  if 0 < available then
    match consumeSamples in0 available with
    | .error e => (.err e, st, in0, in1)
    | .ok (u, in0a) =>
        match consumeSamples in1 available with
        | .error e => (.err e, st, in0a, in1)
        | .ok (v, in1a) =>
            let sta := if isDisabled then st
                       else sdrExecute u v (min in0.channels nbThreads) st
            (.frameOut u, sta, in0a, in1a)
  else
    match in0.status with
    | some sp => (.statusOut sp.1 sp.2, st, in0, in1)
    | none =>
        match in1.status with
        | some sp => (.statusOut sp.1 sp.2, st, in0, in1)
        | none =>
            if frameWanted then
              (.requested (decide (in0.queued = 0)) (decide (in1.queued = 0)),
               st, in0, in1)
            else
              (.notReady, st, in0, in1)

-- Finalization model ---------------------------------------------------------

/-- An IEEE-style extended value as produced by the finalization
arithmetic: a finite value (exact rational in this model), one of the
two infinities, or NaN. -/
inductive EF where
  | finite (q : ℚ)
  | posInf
  | negInf
  | nan
deriving DecidableEq

/-- IEEE double division `a / b` restricted to finite operands: a finite
quotient when `b` is nonzero, and `+inf`, `-inf` or NaN when `b = 0`
according to the sign of `a`. -/
def efDiv (a b : ℚ) : EF :=
  if b = 0 then
    if 0 < a then .posInf else if a < 0 then .negInf else .nan
  else
    .finite (a / b)

/-- IEEE `log10` on extended values, parametrized by the finite-value
logarithm `l10` (the C library's `log10`, external to this file):
`log10(+inf) = +inf`, `log10(0) = -inf`, `log10` of a negative value or
of NaN is NaN. -/
def efLog10 (l10 : ℚ → ℚ) : EF → EF
  | .finite q => if 0 < q then .finite (l10 q) else if q = 0 then .negInf else .nan
  | .posInf => .posInf
  | .negInf => .nan
  | .nan => .nan

/-- Multiplication of an extended value by the positive constant 20:
infinities and NaN are preserved. -/
def efTimes20 : EF → EF
  | .finite q => .finite (20 * q)
  | .posInf => .posInf
  | .negInf => .negInf
  | .nan => .nan

/-- The value logged by `uninit` for one channel:
`20. * log10(s->sum_u[ch] / s->sum_uv[ch])`. -/
def uninitReport (l10 : ℚ → ℚ) (st : SDRState) (ch : ℕ) : EF :=
  efTimes20 (efLog10 l10 (efDiv (st.sum_u ch) (st.sum_uv ch)))

/-- The per-channel values logged by `uninit`, for `ch` in
`[0, s->channels)`. -/
def uninitReports (l10 : ℚ → ℚ) (channels : ℕ) (st : SDRState) : List EF :=
  (List.range channels).map (uninitReport l10 st)

-- Format negotiation model ---------------------------------------------------

/-- The audio sample formats a link could negotiate
(`AV_SAMPLE_FMT_*`). -/
inductive SampleFmt where
  | u8 | s16 | s32 | flt | dbl | u8p | s16p | s32p | fltp | dblp | s64 | s64p
deriving DecidableEq

/-- The kernel specialization stored in `s->filter`. -/
inductive KernelSel where
  | fltpKernel
  | dblpKernel
deriving DecidableEq

/-- `AVERROR(EINVAL)`, the unsupported-format error. -/
def AVERROR_EINVAL : ℤ := -22

/-- Modelled from the spec: the host's format negotiation driven by
`FILTER_SAMPLEFMTS(AV_SAMPLE_FMT_FLTP, AV_SAMPLE_FMT_DBLP)` (the
negotiation machinery is code of this repository outside this file);
configuration fails with an unsupported-format error for any format
other than the two listed planar float formats. -/
def negotiateFormat (fmt : SampleFmt) : Except ℤ SampleFmt :=
  if fmt = SampleFmt.fltp ∨ fmt = SampleFmt.dblp then .ok fmt
  else .error AVERROR_EINVAL

/-- The kernel selection performed by `config_output`:
`s->filter = inlink->format == AV_SAMPLE_FMT_FLTP ? sdr_fltp : sdr_dblp`. -/
def configOutputSelect (fmt : SampleFmt) : KernelSel :=
  if fmt = SampleFmt.fltp then .fltpKernel else .dblpKernel

/-- Stream configuration as a whole: negotiation (which accepts only the
two planar float formats) followed by `config_output`'s kernel
selection. -/
def configureFilter (fmt : SampleFmt) : Except ℤ KernelSel :=
  (negotiateFormat fmt).map configOutputSelect

-- Sharding helper lemmas ----------------------------------------------------

theorem cutMono (C N : ℕ) {j k : ℕ} (h : j ≤ k) : C * j / N ≤ C * k / N :=
  Nat.div_le_div_right (Nat.mul_le_mul_left C h)

theorem sdrCutDisjoint (C N j k : ℕ) (hjk : j < k) :
    Disjoint (Finset.Ico (C * j / N) (C * (j + 1) / N))
      (Finset.Ico (C * k / N) (C * (k + 1) / N)) := by
  refine Finset.disjoint_left.2 ?_
  intro a ha hb
  rw [Finset.mem_Ico] at ha hb
  have : C * (j + 1) / N ≤ C * k / N := cutMono C N (by omega)
  omega

theorem sdrCutBiUnion (C N : ℕ) (hN : 0 < N) :
    (Finset.range N).biUnion
      (fun j => Finset.Ico (C * j / N) (C * (j + 1) / N)) = Finset.Ico 0 C := by
  have key : ∀ m, (Finset.range m).biUnion
      (fun j => Finset.Ico (C * j / N) (C * (j + 1) / N)) =
      Finset.Ico 0 (C * m / N) := by
    intro m
    induction m with
    | zero => simp
    | succ k ih =>
        rw [Finset.range_succ, Finset.biUnion_insert, ih, Finset.union_comm,
            Finset.Ico_union_Ico_eq_Ico (Nat.zero_le _) (cutMono C N (by omega))]
  have h := key N
  rw [h, Nat.mul_div_cancel C hN]

theorem sdrRange_zero_split (u v : Frame) (a b : ℕ) (h : a ≤ b) (st : SDRState) :
    sdrRange u v a (b - a) (sdrRange u v 0 a st) = sdrRange u v 0 b st := by
  conv_rhs => rw [show b = a + (b - a) by omega]
  rw [sdrRange_append]
  simp

theorem sdrExecute_eq_range (u v : Frame) (N : ℕ) (hN : 0 < N) (st : SDRState) :
    sdrExecute u v N st = sdrRange u v 0 u.nb_channels st := by
  have key : ∀ m, (List.range m).foldl (fun st j => sdrJob u v j N st) st =
      sdrRange u v 0 (u.nb_channels * m / N) st := by
    intro m
    induction m with
    | zero => simp [sdrRange]
    | succ k ih =>
        rw [List.range_succ, List.foldl_append]
        simp only [List.foldl_cons, List.foldl_nil]
        rw [ih]
        simp only [sdrJob]
        exact sdrRange_zero_split u v (u.nb_channels * k / N)
          (u.nb_channels * (k + 1) / N) (cutMono _ N (by omega)) st
  unfold sdrExecute
  rw [key N, Nat.mul_div_cancel _ hN]

-- Monotonicity helper lemmas ------------------------------------------------

theorem energySum_nonneg (u : Frame) (ch : ℕ) : 0 ≤ energySum u ch :=
  Finset.sum_nonneg fun _ _ => mul_self_nonneg _

theorem distortionSum_nonneg (u v : Frame) (ch : ℕ) : 0 ≤ distortionSum u v ch :=
  Finset.sum_nonneg fun _ _ => mul_self_nonneg _

theorem sdrAccumChannel_le (u v : Frame) (c : ℕ) (st : SDRState) (ch : ℕ) :
    st.sum_u ch ≤ (sdrAccumChannel u v c st).sum_u ch ∧
    st.sum_uv ch ≤ (sdrAccumChannel u v c st).sum_uv ch := by
  by_cases h : ch = c
  · subst h
    simp only [sdrAccumChannel, sdrChannelSums_eq, Function.update_same]
    exact ⟨by linarith [energySum_nonneg u ch],
           by linarith [distortionSum_nonneg u v ch]⟩
  · simp [sdrAccumChannel, Function.update_noteq h]

theorem sdrRange_le (u v : Frame) (start cnt : ℕ) (st : SDRState) (ch : ℕ) :
    st.sum_u ch ≤ (sdrRange u v start cnt st).sum_u ch ∧
    st.sum_uv ch ≤ (sdrRange u v start cnt st).sum_uv ch := by
  induction cnt generalizing start st with
  | zero => exact ⟨le_refl _, le_refl _⟩
  | succ k ih =>
      simp only [sdrRange]
      have h1 := sdrAccumChannel_le u v start st ch
      have h2 := ih (start + 1) (sdrAccumChannel u v start st)
      exact ⟨le_trans h1.1 h2.1, le_trans h1.2 h2.2⟩

theorem sdrJobFoldl_le (u v : Frame) (m N : ℕ) (st : SDRState) (ch : ℕ) :
    st.sum_u ch ≤
      ((List.range m).foldl (fun st j => sdrJob u v j N st) st).sum_u ch ∧
    st.sum_uv ch ≤
      ((List.range m).foldl (fun st j => sdrJob u v j N st) st).sum_uv ch := by
  induction m with
  | zero => exact ⟨le_refl _, le_refl _⟩
  | succ k ih =>
      rw [List.range_succ, List.foldl_append]
      simp only [List.foldl_cons, List.foldl_nil, sdrJob]
      have h2 := sdrRange_le u v (u.nb_channels * k / N)
        (u.nb_channels * (k + 1) / N - u.nb_channels * k / N)
        ((List.range k).foldl (fun st j => sdrJob u v j N st) st) ch
      exact ⟨le_trans ih.1 h2.1, le_trans ih.2 h2.2⟩

theorem sdrExecute_le (u v : Frame) (n : ℕ) (st : SDRState) (ch : ℕ) :
    st.sum_u ch ≤ (sdrExecute u v n st).sum_u ch ∧
    st.sum_uv ch ≤ (sdrExecute u v n st).sum_uv ch :=
  sdrJobFoldl_le u v n n st ch

-- Concrete inputs used by witnesses -----------------------------------------

/-- The spec's concrete single-channel reference stream [1, 2, 3, 4]. -/
def uRefC1 : Frame :=
  ⟨1, 4, fun _ n =>
    if n = 0 then 1 else if n = 1 then 2 else if n = 2 then 3 else
    if n = 3 then 4 else 0, 0⟩

/-- The spec's concrete single-channel test stream [1, 2, 3, 5]. -/
def vTestC1 : Frame :=
  ⟨1, 4, fun _ n =>
    if n = 0 then 1 else if n = 1 then 2 else if n = 2 then 3 else
    if n = 3 then 5 else 0, 0⟩

/-- A 3-channel, 2-sample reference frame for sharding witnesses. -/
def uRefC4 : Frame := ⟨3, 2, fun ch n => (ch : ℚ) + n, 0⟩

/-- A 3-channel, 2-sample test frame for sharding witnesses. -/
def vTestC4 : Frame := ⟨3, 2, fun ch n => (ch : ℚ) * n, 0⟩

/-- A healthy 3-channel input link with 2 queued samples. -/
def link0C4 : InLink := ⟨3, 2, fun ch n => (ch : ℚ) + n, 0, none, none⟩

/-- A second healthy 3-channel input link with 2 queued samples. -/
def link1C4 : InLink := ⟨3, 2, fun ch n => (ch : ℚ) * n, 0, none, none⟩

-- Claim theorems -------------------------------------------------------------

/-- C1: one accumulation step over a channel range adds, to each channel
in the range, exactly the block's energy sum `Σ u[n]^2` into `sum_u` and
exactly the distortion sum `Σ (u[n]-v[n])^2` into `sum_uv`, as a single
add of a locally formed sum; on the spec's concrete double-precision
input ([1,2,3,4] vs [1,2,3,5]) the accumulated energy is 30 and the
accumulated distortion is 1. -/
theorem claim_C1_accumulation (u v : Frame) (st : SDRState)
    (start cnt ch : ℕ) (h1 : start ≤ ch) (h2 : ch < start + cnt) :
    ((sdrRange u v start cnt st).sum_u ch = st.sum_u ch + energySum u ch ∧
     (sdrRange u v start cnt st).sum_uv ch =
       st.sum_uv ch + distortionSum u v ch) ∧
    ((sdr_dblp uRefC1 vTestC1 0 1 initState).sum_u 0 = 30 ∧
     (sdr_dblp uRefC1 vTestC1 0 1 initState).sum_uv 0 = 1) := by
  refine ⟨sdrRange_mem u v start cnt st ch h1 h2, ?_⟩
  have hm := sdrRange_mem uRefC1 vTestC1 0 1 initState 0 (by omega) (by omega)
  have hjob : sdr_dblp uRefC1 vTestC1 0 1 initState =
      sdrRange uRefC1 vTestC1 0 1 initState := by
    simp [sdr_dblp, sdrJob, uRefC1]
  rw [hjob, hm.1, hm.2]
  norm_num [energySum, distortionSum, uRefC1, vTestC1, initState,
    Finset.sum_range_succ]

/-- Witness for C1 at the spec's concrete input: channel 0 lies in the
single-job range, and the step adds energy 30 and distortion 1 onto the
zero state. -/
theorem claim_C1_accumulation_witness :
    ((sdrRange uRefC1 vTestC1 0 1 initState).sum_u 0 =
       initState.sum_u 0 + energySum uRefC1 0 ∧
     (sdrRange uRefC1 vTestC1 0 1 initState).sum_uv 0 =
       initState.sum_uv 0 + distortionSum uRefC1 vTestC1 0) ∧
    ((sdr_dblp uRefC1 vTestC1 0 1 initState).sum_u 0 = 30 ∧
     (sdr_dblp uRefC1 vTestC1 0 1 initState).sum_uv 0 = 1) :=
  claim_C1_accumulation uRefC1 vTestC1 initState 0 1 0 (by decide) (by decide)

/-- C8: stream configuration succeeds only for the planar float formats
FLTP and DBLP — any other negotiated sample format fails with
`AVERROR(EINVAL)` — and a successful configuration selects the `sdr_fltp`
kernel exactly for FLTP and the `sdr_dblp` kernel exactly for DBLP. -/
theorem claim_C8_formats (fmt : SampleFmt) :
    (fmt ≠ SampleFmt.fltp → fmt ≠ SampleFmt.dblp →
        configureFilter fmt = .error AVERROR_EINVAL) ∧
    (∀ k, configureFilter fmt = .ok k →
        (fmt = SampleFmt.fltp ∧ k = KernelSel.fltpKernel) ∨
        (fmt = SampleFmt.dblp ∧ k = KernelSel.dblpKernel)) := by
  cases fmt <;>
    simp [configureFilter, negotiateFormat, configOutputSelect, Except.map]

/-- Witness for C8: a 16-bit planar format is rejected with
`AVERROR(EINVAL)`, and DBLP configures the double kernel. -/
theorem claim_C8_formats_witness :
    configureFilter SampleFmt.s16p = .error AVERROR_EINVAL ∧
    configureFilter SampleFmt.dblp = .ok KernelSel.dblpKernel :=
  ⟨(claim_C8_formats SampleFmt.s16p).1 (by decide) (by decide), rfl⟩

/-- C2: for every channel in range, finalization reports
`20 * log10(sum_u / sum_uv)`: a finite value when both totals are
positive, positive infinity when the distortion total is zero and the
energy total positive, and NaN when both totals are zero, reported
as-is. -/
theorem claim_C2_finalize (l10 : ℚ → ℚ) (channels : ℕ) (st : SDRState)
    (ch : ℕ) (hch : ch < channels) :
    (0 < st.sum_u ch → 0 < st.sum_uv ch →
        (uninitReports l10 channels st)[ch]? =
          some (.finite (20 * l10 (st.sum_u ch / st.sum_uv ch)))) ∧
    (st.sum_uv ch = 0 → 0 < st.sum_u ch →
        (uninitReports l10 channels st)[ch]? = some .posInf) ∧
    (st.sum_uv ch = 0 → st.sum_u ch = 0 →
        (uninitReports l10 channels st)[ch]? = some .nan) := by
  have hg : (uninitReports l10 channels st)[ch]? =
      some (uninitReport l10 st ch) := by
    simp [uninitReports, List.getElem?_map, List.getElem?_range, hch]
  refine ⟨?_, ?_, ?_⟩
  · intro hu huv
    rw [hg]
    have hne : st.sum_uv ch ≠ 0 := ne_of_gt huv
    have hpos : 0 < st.sum_u ch / st.sum_uv ch := div_pos hu huv
    simp [uninitReport, efDiv, efLog10, efTimes20, hne, hpos]
  · intro huv hu
    rw [hg]
    simp [uninitReport, efDiv, efLog10, efTimes20, huv, hu]
  · intro huv hu
    rw [hg]
    simp [uninitReport, efDiv, efLog10, efTimes20, huv, hu]

/-- Witness for C2: with accumulated energy 30 and distortion 1 on one
channel the reported value is the finite `20 * log10(30)` (here with a
stand-in logarithm returning 7), i.e. 140. -/
theorem claim_C2_finalize_witness :
    (uninitReports (fun _ => (7 : ℚ)) 1 ⟨fun _ => 30, fun _ => 1⟩)[0]? =
      some (EF.finite (20 * 7)) :=
  (claim_C2_finalize (fun _ => (7 : ℚ)) 1 ⟨fun _ => 30, fun _ => 1⟩ 0
    (by decide)).1 (by decide) (by decide)

-- Activate reduction lemmas --------------------------------------------------

theorem activateFail0 (nbThreads : ℕ) (isDisabled frameWanted : Bool)
    (in0 in1 : InLink) (st : SDRState) (e : ℤ)
    (hav : 0 < min in0.queued in1.queued) (h0 : in0.failCode = some e) :
    activate nbThreads isDisabled frameWanted in0 in1 st =
      (.err e, st, in0, in1) := by
  simp only [activate, consumeSamples, h0]
  rw [if_pos hav]

theorem activateFail1 (nbThreads : ℕ) (isDisabled frameWanted : Bool)
    (in0 in1 : InLink) (st : SDRState) (e : ℤ)
    (hav : 0 < min in0.queued in1.queued)
    (h0 : in0.failCode = none) (h1 : in1.failCode = some e) :
    activate nbThreads isDisabled frameWanted in0 in1 st =
      (.err e, st, advanceLink in0 (min in0.queued in1.queued), in1) := by
  simp only [activate, consumeSamples, h0, h1]
  rw [if_pos hav]

theorem activateSuccess (nbThreads : ℕ) (isDisabled frameWanted : Bool)
    (in0 in1 : InLink) (st : SDRState)
    (hav : 0 < min in0.queued in1.queued)
    (h0 : in0.failCode = none) (h1 : in1.failCode = none) :
    activate nbThreads isDisabled frameWanted in0 in1 st =
      (.frameOut ⟨in0.channels, min in0.queued in1.queued, in0.data, in0.pts⟩,
       (if isDisabled then st
        else sdrExecute
          ⟨in0.channels, min in0.queued in1.queued, in0.data, in0.pts⟩
          ⟨in1.channels, min in0.queued in1.queued, in1.data, in1.pts⟩
          (min in0.channels nbThreads) st),
       advanceLink in0 (min in0.queued in1.queued),
       advanceLink in1 (min in0.queued in1.queued)) := by
  simp only [activate, consumeSamples, h0, h1]
  rw [if_pos hav]

theorem activateStatus0 (nbThreads : ℕ) (isDisabled frameWanted : Bool)
    (in0 in1 : InLink) (st : SDRState) (s p : ℤ)
    (hav : ¬ 0 < min in0.queued in1.queued) (hs : in0.status = some (s, p)) :
    activate nbThreads isDisabled frameWanted in0 in1 st =
      (.statusOut s p, st, in0, in1) := by
  simp only [activate, hs]
  rw [if_neg hav]

theorem activateStatus1 (nbThreads : ℕ) (isDisabled frameWanted : Bool)
    (in0 in1 : InLink) (st : SDRState) (s p : ℤ)
    (hav : ¬ 0 < min in0.queued in1.queued)
    (hs0 : in0.status = none) (hs1 : in1.status = some (s, p)) :
    activate nbThreads isDisabled frameWanted in0 in1 st =
      (.statusOut s p, st, in0, in1) := by
  simp only [activate, hs0, hs1]
  rw [if_neg hav]

theorem activateWanted (nbThreads : ℕ) (isDisabled : Bool)
    (in0 in1 : InLink) (st : SDRState)
    (hav : ¬ 0 < min in0.queued in1.queued)
    (hs0 : in0.status = none) (hs1 : in1.status = none) :
    activate nbThreads isDisabled true in0 in1 st =
      (.requested (decide (in0.queued = 0)) (decide (in1.queued = 0)),
       st, in0, in1) := by
  simp only [activate, hs0, hs1]
  rw [if_neg hav]
  simp

theorem activateZeroKeep (nbThreads : ℕ) (isDisabled frameWanted : Bool)
    (in0 in1 : InLink) (st : SDRState)
    (hav : ¬ 0 < min in0.queued in1.queued) :
    (activate nbThreads isDisabled frameWanted in0 in1 st).2.1 = st := by
  simp only [activate]
  rw [if_neg hav]
  cases hs0 : in0.status with
  | some sp => simp
  | none =>
      cases hs1 : in1.status with
      | some sp => simp
      | none => cases frameWanted <;> simp

-- Further concrete inputs for witnesses --------------------------------------

/-- `AVERROR_EOF`, the end-of-stream status code. -/
def AVERROR_EOF : ℤ := -541478725

/-- An input link whose exact-length withdrawal fails with error -5
(an upstream error reported mid-block) while 5 samples appear queued. -/
def linkFailC3 : InLink := ⟨1, 5, fun _ _ => 0, 0, some (-5), none⟩

/-- A healthy single-channel input link with 3 queued samples. -/
def linkOkC3 : InLink := ⟨1, 3, fun _ n => (n : ℚ), 0, none, none⟩

/-- A drained input link carrying an end-of-stream status signal with
timestamp 42. -/
def linkEosC7 : InLink := ⟨1, 0, fun _ _ => 0, 0, none, some (AVERROR_EOF, 42)⟩

/-- A single-channel input link that still has 7 queued samples and no
status signal. -/
def linkBusyC7 : InLink := ⟨1, 7, fun _ _ => 0, 0, none, none⟩

/-- C3: when a positive number of samples is available, the step
withdraws exactly `available` samples from each input (queues shrink by
`available` and the produced block has `available` samples); if either
exact-length withdrawal fails, the step returns the error with every
accumulator total unchanged and forwards no block. -/
theorem claim_C3_withdrawal (nbThreads : ℕ) (isDisabled frameWanted : Bool)
    (in0 in1 : InLink) (st : SDRState)
    (hav : 0 < min in0.queued in1.queued) :
    (∀ e, in0.failCode = some e →
        activate nbThreads isDisabled frameWanted in0 in1 st =
          (.err e, st, in0, in1)) ∧
    (∀ e, in0.failCode = none → in1.failCode = some e →
        activate nbThreads isDisabled frameWanted in0 in1 st =
          (.err e, st, advanceLink in0 (min in0.queued in1.queued), in1)) ∧
    (in0.failCode = none → in1.failCode = none →
        ((activate nbThreads isDisabled frameWanted in0 in1 st).2.2.1 =
            advanceLink in0 (min in0.queued in1.queued) ∧
         (activate nbThreads isDisabled frameWanted in0 in1 st).2.2.2 =
            advanceLink in1 (min in0.queued in1.queued) ∧
         (advanceLink in0 (min in0.queued in1.queued)).queued =
            in0.queued - min in0.queued in1.queued ∧
         (advanceLink in1 (min in0.queued in1.queued)).queued =
            in1.queued - min in0.queued in1.queued ∧
         ∃ f, (activate nbThreads isDisabled frameWanted in0 in1 st).1 =
            ActResult.frameOut f ∧
            f.nb_samples = min in0.queued in1.queued)) := by
  refine ⟨?_, ?_, ?_⟩
  · intro e h0
    exact activateFail0 nbThreads isDisabled frameWanted in0 in1 st e hav h0
  · intro e h0 h1
    exact activateFail1 nbThreads isDisabled frameWanted in0 in1 st e hav h0 h1
  · intro h0 h1
    rw [activateSuccess nbThreads isDisabled frameWanted in0 in1 st hav h0 h1]
    exact ⟨rfl, rfl, rfl, rfl, _, rfl, rfl⟩

/-- Witness for C3: a withdrawal failure with error -5 on input 0 makes
the step return that error with the accumulators untouched. -/
theorem claim_C3_withdrawal_witness :
    activate 1 false false linkFailC3 linkOkC3 initState =
      (ActResult.err (-5), initState, linkFailC3, linkOkC3) :=
  (claim_C3_withdrawal 1 false false linkFailC3 linkOkC3 initState
    (by decide)).1 (-5) rfl

/-- C4: the N sharded channel ranges `[C*j/N, C*(j+1)/N)` are pairwise
disjoint and cover `[0, C)` exactly, sharded accumulation over N jobs
equals single-job accumulation over all channels, and a successful
enabled `activate` step accumulates with job count
`min(channel_count, nb_threads)`, yielding exactly the single-job
totals. -/
theorem claim_C4_sharding (C N : ℕ) (hN : 1 ≤ N) (hNC : N ≤ C) :
    (∀ j k, j < N → k < N → j ≠ k →
        Disjoint (Finset.Ico (C * j / N) (C * (j + 1) / N))
          (Finset.Ico (C * k / N) (C * (k + 1) / N))) ∧
    ((Finset.range N).biUnion
        (fun j => Finset.Ico (C * j / N) (C * (j + 1) / N)) =
      Finset.Ico 0 C) ∧
    (∀ u v st, u.nb_channels = C →
        sdrExecute u v N st = sdrRange u v 0 C st) ∧
    (∀ nbThreads frameWanted in0 in1 st,
        min in0.channels nbThreads = N → in0.channels = C →
        0 < min in0.queued in1.queued →
        in0.failCode = none → in1.failCode = none →
        (activate nbThreads false frameWanted in0 in1 st).2.1 =
          sdrRange ⟨in0.channels, min in0.queued in1.queued, in0.data, in0.pts⟩
            ⟨in1.channels, min in0.queued in1.queued, in1.data, in1.pts⟩
            0 C st) := by
  refine ⟨?_, sdrCutBiUnion C N (by omega), ?_, ?_⟩
  · intro j k hj hk hne
    rcases Nat.lt_or_ge j k with h | h
    · exact sdrCutDisjoint C N j k h
    · exact (sdrCutDisjoint C N k j (by omega)).symm
  · intro u v st hC
    rw [sdrExecute_eq_range u v N (by omega) st, hC]
  · intro nbThreads frameWanted in0 in1 st hmin hC hav h0 h1
    rw [activateSuccess nbThreads false frameWanted in0 in1 st hav h0 h1]
    simp only [Bool.false_eq_true, if_false]
    rw [hmin,
      sdrExecute_eq_range
        ⟨in0.channels, min in0.queued in1.queued, in0.data, in0.pts⟩
        ⟨in1.channels, min in0.queued in1.queued, in1.data, in1.pts⟩
        N (by omega) st]
    simp [hC]

/-- Witness for C4: with 3 channels split into 2 jobs, sharded and
single-job accumulation coincide, both as a kernel run and as the
accumulator state of a successful `activate` step with 2 threads. -/
theorem claim_C4_sharding_witness :
    (sdrExecute uRefC4 vTestC4 2 initState =
      sdrRange uRefC4 vTestC4 0 3 initState) ∧
    (activate 2 false false link0C4 link1C4 initState).2.1 =
      sdrRange ⟨3, 2, link0C4.data, 0⟩ ⟨3, 2, link1C4.data, 0⟩ 0 3 initState :=
  ⟨(claim_C4_sharding 3 2 (by decide) (by decide)).2.2.1 uRefC4 vTestC4
      initState rfl,
   (claim_C4_sharding 3 2 (by decide) (by decide)).2.2.2 2 false link0C4
      link1C4 initState rfl rfl (by decide) rfl rfl⟩

/-- C6: a successful processing step forwards downstream exactly the
reference-side block — with the withdrawn sample data and the input's
timestamp unmodified — and only advances the two input queues; the
test-side block appears in no output. -/
theorem claim_C6_forward (nbThreads : ℕ) (isDisabled frameWanted : Bool)
    (in0 in1 : InLink) (st : SDRState)
    (hav : 0 < min in0.queued in1.queued)
    (h0 : in0.failCode = none) (h1 : in1.failCode = none) :
    (activate nbThreads isDisabled frameWanted in0 in1 st).1 =
      ActResult.frameOut
        ⟨in0.channels, min in0.queued in1.queued, in0.data, in0.pts⟩ ∧
    (activate nbThreads isDisabled frameWanted in0 in1 st).2.2.1 =
      advanceLink in0 (min in0.queued in1.queued) ∧
    (activate nbThreads isDisabled frameWanted in0 in1 st).2.2.2 =
      advanceLink in1 (min in0.queued in1.queued) := by
  rw [activateSuccess nbThreads isDisabled frameWanted in0 in1 st hav h0 h1]
  exact ⟨rfl, rfl, rfl⟩

/-- Witness for C6: with two healthy 3-channel inputs holding 2 samples
each, the step outputs the reference block with input 0's data and
timestamp. -/
theorem claim_C6_forward_witness :
    (activate 2 false false link0C4 link1C4 initState).1 =
      ActResult.frameOut ⟨3, 2, link0C4.data, 0⟩ ∧
    (activate 2 false false link0C4 link1C4 initState).2.2.1 =
      advanceLink link0C4 2 ∧
    (activate 2 false false link0C4 link1C4 initState).2.2.2 =
      advanceLink link1C4 2 :=
  claim_C6_forward 2 false false link0C4 link1C4 initState (by decide) rfl rfl

/-- C7: when no aligned samples are available, a pending status signal on
either input is propagated downstream with its timestamp and nothing is
accumulated; with no pending status and a downstream request, frames are
requested exactly from the inputs with empty queues and the step returns
without error. -/
theorem claim_C7_status (nbThreads : ℕ) (isDisabled frameWanted : Bool)
    (in0 in1 : InLink) (st : SDRState)
    (hav : min in0.queued in1.queued = 0) :
    (∀ s p, in0.status = some (s, p) →
        activate nbThreads isDisabled frameWanted in0 in1 st =
          (ActResult.statusOut s p, st, in0, in1)) ∧
    (∀ s p, in0.status = none → in1.status = some (s, p) →
        activate nbThreads isDisabled frameWanted in0 in1 st =
          (ActResult.statusOut s p, st, in0, in1)) ∧
    (in0.status = none → in1.status = none → frameWanted = true →
        activate nbThreads isDisabled frameWanted in0 in1 st =
          (ActResult.requested (decide (in0.queued = 0))
            (decide (in1.queued = 0)), st, in0, in1)) := by
  have hav2 : ¬ 0 < min in0.queued in1.queued := by omega
  refine ⟨?_, ?_, ?_⟩
  · intro s p hs
    exact activateStatus0 nbThreads isDisabled frameWanted in0 in1 st s p hav2 hs
  · intro s p hs0 hs1
    exact activateStatus1 nbThreads isDisabled frameWanted in0 in1 st s p hav2
      hs0 hs1
  · intro hs0 hs1 hfw
    subst hfw
    exact activateWanted nbThreads isDisabled in0 in1 st hav2 hs0 hs1

/-- Witness for C7: input 0 is drained and carries EOF with timestamp
42 while input 1 still has samples; the step propagates that status with
the accumulators untouched. -/
theorem claim_C7_status_witness :
    activate 1 false false linkEosC7 linkBusyC7 initState =
      (ActResult.statusOut AVERROR_EOF 42, initState, linkEosC7, linkBusyC7) :=
  (claim_C7_status 1 false false linkEosC7 linkBusyC7 initState
    (by decide)).1 AVERROR_EOF 42 rfl

/-- C9: across every `activate` step, each channel's energy and
distortion totals are monotonically non-decreasing — the only mutation
is the kernel's addition of sums of squares. -/
theorem claim_C9_monotone (nbThreads : ℕ) (isDisabled frameWanted : Bool)
    (in0 in1 : InLink) (st : SDRState) (ch : ℕ) :
    st.sum_u ch ≤
      (activate nbThreads isDisabled frameWanted in0 in1 st).2.1.sum_u ch ∧
    st.sum_uv ch ≤
      (activate nbThreads isDisabled frameWanted in0 in1 st).2.1.sum_uv ch := by
  by_cases hav : 0 < min in0.queued in1.queued
  · cases h0 : in0.failCode with
    | some e =>
        rw [activateFail0 nbThreads isDisabled frameWanted in0 in1 st e hav h0]
        exact ⟨le_refl _, le_refl _⟩
    | none =>
        cases h1 : in1.failCode with
        | some e =>
            rw [activateFail1 nbThreads isDisabled frameWanted in0 in1 st e hav
              h0 h1]
            exact ⟨le_refl _, le_refl _⟩
        | none =>
            rw [activateSuccess nbThreads isDisabled frameWanted in0 in1 st hav
              h0 h1]
            cases isDisabled
            · simpa using sdrExecute_le
                ⟨in0.channels, min in0.queued in1.queued, in0.data, in0.pts⟩
                ⟨in1.channels, min in0.queued in1.queued, in1.data, in1.pts⟩
                (min in0.channels nbThreads) st ch
            · simp
  · rw [activateZeroKeep nbThreads isDisabled frameWanted in0 in1 st hav]
    exact ⟨le_refl _, le_refl _⟩

/-- C10: with the filter disabled, a successful step still withdraws both
blocks and forwards the reference block, but the kernel is not invoked
and the accumulator state is returned unchanged. -/
theorem claim_C10_disabled (nbThreads : ℕ) (frameWanted : Bool)
    (in0 in1 : InLink) (st : SDRState)
    (hav : 0 < min in0.queued in1.queued)
    (h0 : in0.failCode = none) (h1 : in1.failCode = none) :
    activate nbThreads true frameWanted in0 in1 st =
      (ActResult.frameOut
        ⟨in0.channels, min in0.queued in1.queued, in0.data, in0.pts⟩,
       st, advanceLink in0 (min in0.queued in1.queued),
       advanceLink in1 (min in0.queued in1.queued)) := by
  rw [activateSuccess nbThreads true frameWanted in0 in1 st hav h0 h1]
  simp

/-- Witness for C10: the disabled step on two healthy inputs forwards
the reference block and keeps the zero accumulator state. -/
theorem claim_C10_disabled_witness :
    activate 2 true false link0C4 link1C4 initState =
      (ActResult.frameOut ⟨3, 2, link0C4.data, 0⟩, initState,
       advanceLink link0C4 2, advanceLink link1C4 2) :=
  claim_C10_disabled 2 false link0C4 link1C4 initState (by decide) rfl rfl
